import Mathlib

/-!
Shallow embedding of the xshade type-checking pass
(`src/type_system/type_check.rs`) together with models of its two
supporting components, the Type Environment and the Symbol Table, which
are described in the specification (§4.1, §4.2) but whose source files
are not part of the checked sources.  Rust's in-place mutation is
rendered as explicit state passing: every checking function returns the
updated environment/table/AST nodes next to an `Except TypeError`
outcome, so that partial annotations and unbalanced scopes on the error
path are observable, exactly as in the original.
-/

namespace Xshade

/-- An opaque, copyable identifier for a declared type; equality is by
identity (the numeric id), never by structural shape. -/
structure TypeReference where
  id : Nat
deriving DecidableEq, Repr

/-- Mirror of Rust's `TypeReference::new`. -/
def TypeReference.new (id : Nat) : TypeReference := ⟨id⟩

/-- Modelled from the spec: the Type entry owned by the Type Environment —
the type's declared name and its two sets of outgoing cast edges. -/
structure TypeEntry where
  name : String
  implicit_casts : List TypeReference
  explicit_casts : List TypeReference
deriving DecidableEq, Repr

/-- Modelled from the spec: `does_cast_exist` — true if either an implicit
or an explicit edge from this entry to `target` is already registered. -/
def TypeEntry.does_cast_exist (t : TypeEntry) (target : TypeReference) : Bool :=
  t.implicit_casts.contains target || t.explicit_casts.contains target

/-- Modelled from the spec: the Type Environment — the universe of declared
types; a `TypeReference` is an index into `types`. -/
structure TypeEnvironment where
  types : List TypeEntry
deriving DecidableEq, Repr

/-- Modelled from the spec: `create_type` allocates a fresh, globally unique
identity for a new type named `name` and registers an empty cast-edge set
for it.  Never fails for a well-formed name. -/
def TypeEnvironment.create_type (te : TypeEnvironment) (name : String) :
    TypeReference × TypeEnvironment :=
  (⟨te.types.length⟩, ⟨te.types ++ [⟨name, [], []⟩]⟩)

/-- Modelled from the spec: `find_type_mut` resolves a reference to its
entry; absence signals a stale reference. -/
def TypeEnvironment.find_type_mut (te : TypeEnvironment) (r : TypeReference) :
    Option TypeEntry :=
  te.types[r.id]?

/-- Modelled from the spec: `add_implicit_cast` inserts an implicit edge on
the source entry (the caller has already checked `does_cast_exist`). -/
def TypeEnvironment.add_implicit_cast (te : TypeEnvironment)
    (source target : TypeReference) : TypeEnvironment :=
  match te.types[source.id]? with
  | none => te
  | some entry =>
      ⟨te.types.set source.id
        { entry with implicit_casts := entry.implicit_casts ++ [target] }⟩

/-- Modelled from the spec: `add_explicit_cast` inserts an explicit edge on
the source entry. -/
def TypeEnvironment.add_explicit_cast (te : TypeEnvironment)
    (source target : TypeReference) : TypeEnvironment :=
  match te.types[source.id]? with
  | none => te
  | some entry =>
      ⟨te.types.set source.id
        { entry with explicit_casts := entry.explicit_casts ++ [target] }⟩

/-- The typed error value produced by the checker (spec §7).  The last two
constructors model Symbol-Table failures the spec names only by class:
`SymbolNotFound` for `resolve_symbol_type` on a missing symbol, and
`ScopeUnderflow` for the fatal contract violation of touching the current
scope of an empty scope stack. -/
inductive TypeError where
  | SyntaxOnlyValidInCoreModule
  | TypeNotFound (name : String)
  | CastAlreadyDeclared (source : String) (target : String)
  | VariableNotFound (name : String)
  | CannotInfer (name : String)
  | DuplicateSymbol (name : String)
  | DuplicateType (name : String)
  | SymbolNotFound (name : String)
  | ScopeUnderflow
deriving DecidableEq, Repr

/-- Modelled from the spec: a named value binding in some scope, with an
optional resolved type. -/
structure Symbol where
  name : String
  symbol_type : Option TypeReference
deriving DecidableEq, Repr

/-- The symbol's resolved type, if any. -/
def Symbol.get_type (s : Symbol) : Option TypeReference := s.symbol_type

/-- Modelled from the spec: one lexical scope, with two logically separate
mappings — type-name bindings and value-name bindings (spec §9). -/
structure Scope where
  types : List (String × TypeReference)
  symbols : List Symbol
deriving DecidableEq, Repr

/-- The empty scope created on `enter_scope`. -/
def Scope.empty : Scope := ⟨[], []⟩

/-- First value symbol with the given name in this scope. -/
def Scope.find_symbol (s : Scope) (name : String) : Option Symbol :=
  s.symbols.find? (fun sym => sym.name == name)

/-- First type binding with the given name in this scope. -/
def Scope.find_type (s : Scope) (name : String) : Option TypeReference :=
  (s.types.find? (fun p => p.1 == name)).map (fun p => p.2)

/-- Modelled from the spec: the Symbol Table — a stack of scopes, head is
the innermost (current) scope, the last element is the global scope. -/
structure SymbolTable where
  scopes : List Scope
deriving DecidableEq, Repr

/-- A fresh Symbol Table with no scopes; the first `enter_scope` creates
the global scope. -/
def SymbolTable.new : SymbolTable := ⟨[]⟩

/-- Modelled from the spec: `enter_scope` pushes a fresh scope frame. -/
def SymbolTable.enter_scope (st : SymbolTable) : SymbolTable :=
  ⟨Scope.empty :: st.scopes⟩

/-- Modelled from the spec: `leave_scope` pops the current scope frame
(leaving with no matching enter is a contract violation; the model drops
nothing in that case). -/
def SymbolTable.leave_scope (st : SymbolTable) : SymbolTable :=
  ⟨st.scopes.tail⟩

/-- The current scope depth. -/
def SymbolTable.depth (st : SymbolTable) : Nat := st.scopes.length

/-- Modelled from the spec: `add_symbol` registers a value-namespace symbol
with no resolved type in the current scope; fails with a DuplicateSymbol
error if the name already exists in that exact scope's value namespace. -/
def SymbolTable.add_symbol (st : SymbolTable) (name : String) :
    Except TypeError SymbolTable :=
  match st.scopes with
  | [] => .error .ScopeUnderflow
  | scope :: rest =>
      if (scope.find_symbol name).isSome then
        .error (.DuplicateSymbol name)
      else
        .ok ⟨{ scope with symbols := scope.symbols ++ [⟨name, none⟩] } :: rest⟩

/-- Modelled from the spec: `add_symbol_with_type` — as `add_symbol` but
with the type pre-resolved. -/
def SymbolTable.add_symbol_with_type (st : SymbolTable) (name : String)
    (type_ref : TypeReference) : Except TypeError SymbolTable :=
  match st.scopes with
  | [] => .error .ScopeUnderflow
  | scope :: rest =>
      if (scope.find_symbol name).isSome then
        .error (.DuplicateSymbol name)
      else
        .ok ⟨{ scope with symbols := scope.symbols ++ [⟨name, some type_ref⟩] } :: rest⟩

/-- Modelled from the spec: `add_type` registers a type-namespace symbol in
the current scope; fails with a DuplicateType error on collision. -/
def SymbolTable.add_type (st : SymbolTable) (name : String)
    (type_ref : TypeReference) : Except TypeError SymbolTable :=
  match st.scopes with
  | [] => .error .ScopeUnderflow
  | scope :: rest =>
      if (scope.find_type name).isSome then
        .error (.DuplicateType name)
      else
        .ok ⟨{ scope with types := scope.types ++ [(name, type_ref)] } :: rest⟩

/-- Auxiliary for `add_global_type`: the global scope is the bottom-most
(last) frame of the stack. -/
def addGlobalTypeAux (name : String) (type_ref : TypeReference) :
    List Scope → Except TypeError (List Scope)
  | [] => .error .ScopeUnderflow
  | [g] =>
      if (g.find_type name).isSome then
        .error (.DuplicateType name)
      else
        .ok [{ g with types := g.types ++ [(name, type_ref)] }]
  | s :: rest => (addGlobalTypeAux name type_ref rest).map (fun r => s :: r)

/-- Modelled from the spec: `add_global_type` registers a type-namespace
symbol explicitly in the global scope, so primitives remain visible
regardless of the calling scope. -/
def SymbolTable.add_global_type (st : SymbolTable) (name : String)
    (type_ref : TypeReference) : Except TypeError SymbolTable :=
  (addGlobalTypeAux name type_ref st.scopes).map (fun r => ⟨r⟩)

/-- Fill in the type of the first symbol with the given name in a value
namespace. -/
def resolveInSymbols (name : String) (type_ref : TypeReference) :
    List Symbol → List Symbol
  | [] => []
  | sym :: rest =>
      if sym.name == name then { sym with symbol_type := some type_ref } :: rest
      else sym :: resolveInSymbols name type_ref rest

/-- Auxiliary for `resolve_symbol_type`: walk from the innermost scope. -/
def resolveSymbolTypeAux (name : String) (type_ref : TypeReference) :
    List Scope → Except TypeError (List Scope)
  | [] => .error (.SymbolNotFound name)
  | s :: rest =>
      if (s.find_symbol name).isSome then
        .ok ({ s with symbols := resolveInSymbols name type_ref s.symbols } :: rest)
      else
        (resolveSymbolTypeAux name type_ref rest).map (fun r => s :: r)

/-- Modelled from the spec: `resolve_symbol_type` finds an existing symbol
by name in the nearest scope containing it and fills in its type; fails if
the symbol does not exist. -/
def SymbolTable.resolve_symbol_type (st : SymbolTable) (name : String)
    (type_ref : TypeReference) : Except TypeError SymbolTable :=
  (resolveSymbolTypeAux name type_ref st.scopes).map (fun r => ⟨r⟩)

/-- Auxiliary for `find_symbol`: innermost-to-outermost walk. -/
def findSymbolAux (name : String) : List Scope → Option Symbol
  | [] => none
  | s :: rest =>
      match s.find_symbol name with
      | some sym => some sym
      | none => findSymbolAux name rest

/-- Modelled from the spec: `find_symbol` walks scopes innermost to
outermost and returns the first match. -/
def SymbolTable.find_symbol (st : SymbolTable) (name : String) : Option Symbol :=
  findSymbolAux name st.scopes

/-- Auxiliary for `find_type_or_err`: innermost-to-outermost walk of the
type namespaces. -/
def findTypeAux (name : String) : List Scope → Option TypeReference
  | [] => none
  | s :: rest =>
      match s.find_type name with
      | some r => some r
      | none => findTypeAux name rest

/-- Modelled from the spec: `find_type_or_err` looks up a type-namespace
name across all visible scopes; fails with `TypeNotFound` if absent. -/
def SymbolTable.find_type_or_err (st : SymbolTable) (name : String) :
    Except TypeError TypeReference :=
  match findTypeAux name st.scopes with
  | some r => .ok r
  | none => .error (.TypeNotFound name)

/-! ## The AST (`::ast`), restricted to what the checker reads and writes -/

/-- The two numeric-literal kinds. -/
inductive LiteralType where
  | Float
  | Int
deriving DecidableEq, Repr

/-- A literal expression node with its writable resolved field. -/
structure LiteralExpression where
  literal_expression_type : LiteralType
  literal_type : Option TypeReference
deriving DecidableEq, Repr

/-- A variable-reference expression node with its writable resolved field. -/
structure VariableExpression where
  variable_name : String
  variable_type : Option TypeReference
deriving DecidableEq, Repr

mutual

/-- An expression statement; `Other` stands for the remaining expression
kinds of the source grammar, which the checker does not yet handle. -/
inductive ExpressionStatement where
  | Literal (e : LiteralExpression)
  | Variable (e : VariableExpression)
  | Infix (e : InfixExpression)
  | StructInstantiation (e : StructInstantiationExpression)
  | Other

/-- A binary expression with its writable `infix_type` field. -/
inductive InfixExpression where
  | mk (left_hand : ExpressionStatement) (right_hand : ExpressionStatement)
      (infix_type : Option TypeReference)

/-- A struct-instantiation expression with its writable `struct_type`
field. -/
inductive StructInstantiationExpression where
  | mk (struct_type_name : String)
      (struct_field_initializer : List StructFieldInitializer)
      (struct_type : Option TypeReference)

/-- One field initializer with its writable `struct_field_type` field. -/
inductive StructFieldInitializer where
  | mk (initializer : ExpressionStatement) (struct_field_type : Option TypeReference)

end

/-- Left operand of a binary expression. -/
def InfixExpression.left_hand : InfixExpression → ExpressionStatement
  | .mk l _ _ => l

/-- Right operand of a binary expression. -/
def InfixExpression.right_hand : InfixExpression → ExpressionStatement
  | .mk _ r _ => r

/-- The resolved type written on a binary expression. -/
def InfixExpression.infix_type : InfixExpression → Option TypeReference
  | .mk _ _ t => t

/-- Name of the struct type being instantiated. -/
def StructInstantiationExpression.struct_type_name :
    StructInstantiationExpression → String
  | .mk n _ _ => n

/-- The field initializers of a struct instantiation. -/
def StructInstantiationExpression.struct_field_initializer :
    StructInstantiationExpression → List StructFieldInitializer
  | .mk _ l _ => l

/-- The resolved type written on a struct instantiation. -/
def StructInstantiationExpression.struct_type :
    StructInstantiationExpression → Option TypeReference
  | .mk _ _ t => t

/-- The initializer expression of one struct field. -/
def StructFieldInitializer.initializer : StructFieldInitializer → ExpressionStatement
  | .mk e _ => e

/-- The resolved type written on one struct field initializer. -/
def StructFieldInitializer.struct_field_type :
    StructFieldInitializer → Option TypeReference
  | .mk _ t => t

/-! ## Expression checking (`check_expression` and friends)

Rust mutates the nodes through `&mut`; the embedding returns the updated
node next to the `Except` outcome, so annotations written before a failure
survive it, as in the source.  Expression checking never mutates the
symbol table (it only calls lookups), so `st` is passed by value. -/

/-- `check_variable_expression`: looks the name up as a value symbol;
`VariableNotFound` when absent, `CannotInfer` when present without a
resolved type; otherwise records and returns the type. -/
def check_variable_expression (st : SymbolTable) (e : VariableExpression) :
    VariableExpression × Except TypeError TypeReference :=
  match st.find_symbol e.variable_name with
  | some symbol =>
      match symbol.get_type with
      | some t => ({ e with variable_type := some t }, .ok t)
      | none => (e, .error (.CannotInfer e.variable_name))
  | none => (e, .error (.VariableNotFound e.variable_name))

/-- `check_literal_expression`: a float literal is typed by the built-in
name `f32`, an integer literal by `i32`, both looked up via the symbol
table; the found reference is recorded on the node. -/
def check_literal_expression (st : SymbolTable) (e : LiteralExpression) :
    LiteralExpression × Except TypeError TypeReference :=
  match e.literal_expression_type with
  | .Float =>
      match st.find_type_or_err "f32" with
      | .error err => (e, .error err)
      | .ok type_ref => ({ e with literal_type := some type_ref }, .ok type_ref)
  | .Int =>
      match st.find_type_or_err "i32" with
      | .error err => (e, .error err)
      | .ok type_ref => ({ e with literal_type := some type_ref }, .ok type_ref)

mutual

/-- `check_expression`: structural recursion keyed on expression kind;
unhandled kinds return the placeholder `TypeReference::new(0)`. -/
def check_expression (st : SymbolTable) :
    ExpressionStatement → ExpressionStatement × Except TypeError TypeReference
  | .Literal e =>
      match check_literal_expression st e with
      | (e', r) => (.Literal e', r)
  | .Variable e =>
      match check_variable_expression st e with
      | (e', r) => (.Variable e', r)
  | .Infix e =>
      match check_infix_expression st e with
      | (e', r) => (.Infix e', r)
  | .StructInstantiation e =>
      match check_struct_instatiation_expression st e with
      | (e', r) => (.StructInstantiation e', r)
  | .Other => (.Other, .ok (TypeReference.new 0))

/-- `check_infix_expression`: infers both operand types, takes the left
operand's type as the result (mismatch handling is a TODO in the source)
and records it on the node. -/
def check_infix_expression (st : SymbolTable) :
    InfixExpression → InfixExpression × Except TypeError TypeReference
  | .mk left_hand right_hand infix_ty =>
      match check_expression st left_hand with
      | (l', .error e) => (.mk l' right_hand infix_ty, .error e)
      | (l', .ok left_hand_type) =>
          match check_expression st right_hand with
          | (r', .error e) => (.mk l' r' infix_ty, .error e)
          | (r', .ok _right_hand_type) =>
              (.mk l' r' (some left_hand_type), .ok left_hand_type)

/-- `check_struct_instatiation_expression` (the source's spelling): resolves
the struct type name, records it, then checks each field initializer. -/
def check_struct_instatiation_expression (st : SymbolTable) :
    StructInstantiationExpression →
      StructInstantiationExpression × Except TypeError TypeReference
  | .mk struct_type_name inits struct_ty =>
      match st.find_type_or_err struct_type_name with
      | .error e => (.mk struct_type_name inits struct_ty, .error e)
      | .ok struct_type =>
          match check_struct_field_initializers st inits with
          | (inits', .error e) =>
              (.mk struct_type_name inits' (some struct_type), .error e)
          | (inits', .ok _) =>
              (.mk struct_type_name inits' (some struct_type), .ok struct_type)

/-- The loop body of `check_struct_instatiation_expression` over the field
initializers: each initializer's inferred type is recorded on it
(compatibility with the declared field type is a TODO in the source). -/
def check_struct_field_initializers (st : SymbolTable) :
    List StructFieldInitializer → List StructFieldInitializer × Except TypeError Unit
  | [] => ([], .ok ())
  | .mk init fty :: rest =>
      match check_expression st init with
      | (init', .error e) => (.mk init' fty :: rest, .error e)
      | (init', .ok initializer_type) =>
          match check_struct_field_initializers st rest with
          | (rest', r) => (.mk init' (some initializer_type) :: rest', r)

end

/-! ## Declarations and the module -/

/-- A primitive type declaration with its writable `declaring_type`. -/
structure PrimitiveDeclaration where
  type_name : String
  declaring_type : Option TypeReference
deriving DecidableEq, Repr

/-- One struct member: its name, the textual type name, and the writable
resolved `struct_member_type`. -/
structure StructMember where
  struct_member_name : String
  struct_member_type_name : String
  struct_member_type : Option TypeReference
deriving DecidableEq, Repr

/-- A struct definition with its writable `declaring_type`. -/
structure StructDefinition where
  struct_name : String
  struct_member : List StructMember
  declaring_type : Option TypeReference
deriving DecidableEq, Repr

/-- The declared kind of a cast edge. -/
inductive CastType where
  | Implicit
  | Explicit
deriving DecidableEq, Repr

/-- A cast declaration: kind and the two endpoint type names. -/
structure CastDeclaration where
  cast_type : CastType
  source_type : String
  target_type : String
deriving DecidableEq, Repr

/-- A constant definition with its writable `constant_type`. -/
structure ConstantDefinition where
  constant_name : String
  constant_type_name : String
  constant_type : Option TypeReference
deriving DecidableEq, Repr

/-- One function argument with its writable `argument_type`. -/
structure FunctionArgument where
  argument_name : String
  argument_type_name : String
  argument_type : Option TypeReference
deriving DecidableEq, Repr

/-- A local-variable declaration statement with its writable `local_type`. -/
structure LocalDeclaration where
  symbol_name : String
  expression : ExpressionStatement
  local_type : Option TypeReference

/-- A return statement with its writable `return_type`. -/
structure ReturnDeclaration where
  expression : ExpressionStatement
  return_type : Option TypeReference

/-- The three statement kinds of a block. -/
inductive BlockStatement where
  | Local (l : LocalDeclaration)
  | Return (r : ReturnDeclaration)
  | Expression (e : ExpressionStatement)

/-- A block: an ordered sequence of statements. -/
structure BlockDeclaration where
  statements : List BlockStatement

/-- A function declaration with its writable `return_type`. -/
structure FunctionDeclaration where
  function_name : String
  arguments : List FunctionArgument
  return_type_name : String
  return_type : Option TypeReference
  block : BlockDeclaration

/-- A module: the core-module flag and its declarations, as the ordered
sequences `find_*_mut` expose to the checker. -/
structure Module where
  is_core : Bool
  primitives : List PrimitiveDeclaration
  structs : List StructDefinition
  casts : List CastDeclaration
  constants : List ConstantDefinition
  functions : List FunctionDeclaration

/-! ## The declaration pass (`type_check` and the `check_*` functions) -/

/-- The loop body of `check_primitives`: create the type, register it
globally, record it on the declaration. -/
def check_primitives_loop (te : TypeEnvironment) (st : SymbolTable) :
    List PrimitiveDeclaration →
      TypeEnvironment × SymbolTable × List PrimitiveDeclaration × Except TypeError Unit
  | [] => (te, st, [], .ok ())
  | p :: rest =>
      match te.create_type p.type_name with
      | (reference, te') =>
          match st.add_global_type p.type_name reference with
          | .error e => (te', st, p :: rest, .error e)
          | .ok st' =>
              let p' := { p with declaring_type := some reference }
              match check_primitives_loop te' st' rest with
              | (te'', st'', rest', r) => (te'', st'', p' :: rest', r)

/-- `check_primitives`: primitives are only legal in the core module;
each one becomes a fresh, globally registered type. -/
def check_primitives (is_core_module : Bool) (te : TypeEnvironment)
    (st : SymbolTable) (primitives : List PrimitiveDeclaration) :
    TypeEnvironment × SymbolTable × List PrimitiveDeclaration × Except TypeError Unit :=
  if !is_core_module && primitives.length > 0 then
    (te, st, primitives, .error .SyntaxOnlyValidInCoreModule)
  else
    check_primitives_loop te st primitives

/-- First sub-pass of `check_structs`: register every struct name as a
value symbol and as a type, and record the fresh reference on the
declaration. -/
def check_structs_pass1 (te : TypeEnvironment) (st : SymbolTable) :
    List StructDefinition →
      TypeEnvironment × SymbolTable × List StructDefinition × Except TypeError Unit
  | [] => (te, st, [], .ok ())
  | s :: rest =>
      match st.add_symbol s.struct_name with
      | .error e => (te, st, s :: rest, .error e)
      | .ok st1 =>
          match te.create_type s.struct_name with
          | (reference, te') =>
              match st1.add_type s.struct_name reference with
              | .error e => (te', st1, s :: rest, .error e)
              | .ok st2 =>
                  let s' := { s with declaring_type := some reference }
                  match check_structs_pass1 te' st2 rest with
                  | (te'', st'', rest', r) => (te'', st'', s' :: rest', r)

/-- Inner loop of the second sub-pass: resolve each member's type name and
record it on the member. -/
def check_struct_members (st : SymbolTable) :
    List StructMember → List StructMember × Except TypeError Unit
  | [] => ([], .ok ())
  | member :: rest =>
      match st.find_type_or_err member.struct_member_type_name with
      | .error e => (member :: rest, .error e)
      | .ok struct_member_type =>
          let member' := { member with struct_member_type := some struct_member_type }
          match check_struct_members st rest with
          | (rest', r) => (member' :: rest', r)

/-- Second sub-pass of `check_structs`: with all struct names registered,
resolve every member's type name. -/
def check_structs_pass2 (st : SymbolTable) :
    List StructDefinition → List StructDefinition × Except TypeError Unit
  | [] => ([], .ok ())
  | s :: rest =>
      match check_struct_members st s.struct_member with
      | (members', .error e) => ({ s with struct_member := members' } :: rest, .error e)
      | (members', .ok _) =>
          let s' := { s with struct_member := members' }
          match check_structs_pass2 st rest with
          | (rest', r) => (s' :: rest', r)

/-- `check_structs`: two sub-passes so that struct members may reference
structs declared later in the same module. -/
def check_structs (te : TypeEnvironment) (st : SymbolTable)
    (structs : List StructDefinition) :
    TypeEnvironment × SymbolTable × List StructDefinition × Except TypeError Unit :=
  match check_structs_pass1 te st structs with
  | (te', st', structs', .error e) => (te', st', structs', .error e)
  | (te', st', structs', .ok _) =>
      match check_structs_pass2 st' structs' with
      | (structs'', r) => (te', st', structs'', r)

/-- The loop body of `check_casts`: resolve both endpoints, reject a
duplicate edge, then add the edge to the set selected by the declared
`CastType`. -/
def check_casts_loop (st : SymbolTable) (te : TypeEnvironment) :
    List CastDeclaration → TypeEnvironment × Except TypeError Unit
  | [] => (te, .ok ())
  | c :: rest =>
      match st.find_type_or_err c.source_type with
      | .error e => (te, .error e)
      | .ok source_ref =>
          match st.find_type_or_err c.target_type with
          | .error e => (te, .error e)
          | .ok target_ref =>
              match te.find_type_mut source_ref with
              | none => (te, .error (.TypeNotFound c.source_type))
              | some entry =>
                  if entry.does_cast_exist target_ref then
                    (te, .error (.CastAlreadyDeclared c.source_type c.target_type))
                  else
                    let te' :=
                      match c.cast_type with
                      | .Implicit => te.add_implicit_cast source_ref target_ref
                      | .Explicit => te.add_explicit_cast source_ref target_ref
                    check_casts_loop st te' rest

/-- `check_casts`: casts are only legal in the core module; each cast's
endpoints must already resolve, and a duplicate edge (either kind) is
`CastAlreadyDeclared`. -/
def check_casts (is_core_module : Bool) (te : TypeEnvironment) (st : SymbolTable)
    (casts : List CastDeclaration) : TypeEnvironment × Except TypeError Unit :=
  if !is_core_module && casts.length > 0 then
    (te, .error .SyntaxOnlyValidInCoreModule)
  else
    check_casts_loop st te casts

/-- `check_constant`: register the constant as a value symbol, resolve its
declared type name, record it on the declaration and fill in the symbol's
type. -/
def check_constant (st : SymbolTable) :
    List ConstantDefinition →
      SymbolTable × List ConstantDefinition × Except TypeError Unit
  | [] => (st, [], .ok ())
  | s :: rest =>
      match st.add_symbol s.constant_name with
      | .error e => (st, s :: rest, .error e)
      | .ok st1 =>
          match st1.find_type_or_err s.constant_type_name with
          | .error e => (st1, s :: rest, .error e)
          | .ok type_ref =>
              let s' := { s with constant_type := some type_ref }
              match st1.resolve_symbol_type s.constant_name type_ref with
              | .error e => (st1, s' :: rest, .error e)
              | .ok st2 =>
                  match check_constant st2 rest with
                  | (st'', rest', r) => (st'', s' :: rest', r)

/-- The argument loop of `check_functions`: resolve each argument's type
name, record it, and bind the argument in the function's scope. -/
def check_arguments (st : SymbolTable) :
    List FunctionArgument → SymbolTable × List FunctionArgument × Except TypeError Unit
  | [] => (st, [], .ok ())
  | a :: rest =>
      match st.find_type_or_err a.argument_type_name with
      | .error e => (st, a :: rest, .error e)
      | .ok type_ref =>
          let a' := { a with argument_type := some type_ref }
          match st.add_symbol_with_type a.argument_name type_ref with
          | .error e => (st, a' :: rest, .error e)
          | .ok st' =>
              match check_arguments st' rest with
              | (st'', rest', r) => (st'', a' :: rest', r)

/-- The statement loop of `check_block`: a local declaration's type is
inferred from its initializer and bound in the current scope; a return
statement records its expression's type; a bare expression is checked for
its side effect only. -/
def check_block_statements (st : SymbolTable) :
    List BlockStatement → SymbolTable × List BlockStatement × Except TypeError Unit
  | [] => (st, [], .ok ())
  | .Local local_declaration :: rest =>
      match check_expression st local_declaration.expression with
      | (e', .error err) =>
          (st, .Local { local_declaration with expression := e' } :: rest, .error err)
      | (e', .ok local_type) =>
          let ld' := { local_declaration with
                        expression := e', local_type := some local_type }
          match st.add_symbol_with_type local_declaration.symbol_name local_type with
          | .error err => (st, .Local ld' :: rest, .error err)
          | .ok st' =>
              match check_block_statements st' rest with
              | (st'', rest', r) => (st'', .Local ld' :: rest', r)
  | .Return return_declaration :: rest =>
      match check_expression st return_declaration.expression with
      | (e', .error err) =>
          (st, .Return { return_declaration with expression := e' } :: rest, .error err)
      | (e', .ok return_type) =>
          let rd' := { return_declaration with
                        expression := e', return_type := some return_type }
          match check_block_statements st rest with
          | (st'', rest', r) => (st'', .Return rd' :: rest', r)
  | .Expression expression_statement :: rest =>
      match check_expression st expression_statement with
      | (e', .error err) => (st, .Expression e' :: rest, .error err)
      | (e', .ok _) =>
          match check_block_statements st rest with
          | (st'', rest', r) => (st'', .Expression e' :: rest', r)

/-- `check_block`: a block introduces its own nested scope; on the failure
path the early return skips `leave_scope`, as in the source. -/
def check_block (st : SymbolTable) (block : BlockDeclaration) :
    SymbolTable × BlockDeclaration × Except TypeError Unit :=
  match check_block_statements st.enter_scope block.statements with
  | (st', stmts', .error e) => (st', ⟨stmts'⟩, .error e)
  | (st', stmts', .ok _) => (st'.leave_scope, ⟨stmts'⟩, .ok ())

/-- `check_functions`: each function's name is bound (with a fresh function
type) in the enclosing scope before its own scope is entered; arguments
and the return type are resolved inside that scope, then the body is
checked as a block; the scope is left only on the success path. -/
def check_functions (te : TypeEnvironment) (st : SymbolTable) :
    List FunctionDeclaration →
      TypeEnvironment × SymbolTable × List FunctionDeclaration × Except TypeError Unit
  | [] => (te, st, [], .ok ())
  | f :: rest =>
      match te.create_type f.function_name with
      | (function_type, te') =>
          match st.add_symbol_with_type f.function_name function_type with
          | .error e => (te', st, f :: rest, .error e)
          | .ok st1 =>
              let st2 := st1.enter_scope
              match check_arguments st2 f.arguments with
              | (st3, args', .error e) =>
                  (te', st3, { f with arguments := args' } :: rest, .error e)
              | (st3, args', .ok _) =>
                  match st3.find_type_or_err f.return_type_name with
                  | .error e =>
                      (te', st3, { f with arguments := args' } :: rest, .error e)
                  | .ok type_ref =>
                      let f1 := { f with arguments := args', return_type := some type_ref }
                      match check_block st3 f.block with
                      | (st4, block', .error e) =>
                          (te', st4, { f1 with block := block' } :: rest, .error e)
                      | (st4, block', .ok _) =>
                          let st5 := st4.leave_scope
                          match check_functions te' st5 rest with
                          | (te'', st'', rest', r) =>
                              (te'', st'', { f1 with block := block' } :: rest', r)

/-- `type_check`: enter the module scope, run the five phases in their
fixed order, and leave the module scope — the leave happens only on the
success path, as in the source. -/
def type_check (te : TypeEnvironment) (st : SymbolTable) (m : Module) :
    TypeEnvironment × SymbolTable × Module × Except TypeError Unit :=
  let st0 := st.enter_scope
  match check_primitives m.is_core te st0 m.primitives with
  | (te1, st1, prims', .error e) => (te1, st1, { m with primitives := prims' }, .error e)
  | (te1, st1, prims', .ok _) =>
      let m1 := { m with primitives := prims' }
      match check_structs te1 st1 m1.structs with
      | (te2, st2, structs', .error e) =>
          (te2, st2, { m1 with structs := structs' }, .error e)
      | (te2, st2, structs', .ok _) =>
          let m2 := { m1 with structs := structs' }
          match check_casts m2.is_core te2 st2 m2.casts with
          | (te3, .error e) => (te3, st2, m2, .error e)
          | (te3, .ok _) =>
              match check_constant st2 m2.constants with
              | (st3, consts', .error e) =>
                  (te3, st3, { m2 with constants := consts' }, .error e)
              | (st3, consts', .ok _) =>
                  let m3 := { m2 with constants := consts' }
                  match check_functions te3 st3 m3.functions with
                  | (te4, st4, funcs', .error e) =>
                      (te4, st4, { m3 with functions := funcs' }, .error e)
                  | (te4, st4, funcs', .ok _) =>
                      (te4, st4.leave_scope, { m3 with functions := funcs' }, .ok ())

/-! ## Shared helper lemmas -/

/-- `find?` skips a prefix in which nothing matches. -/
theorem find?_append_of_none {α : Type} {p : α → Bool} {l₁ l₂ : List α}
    (h : l₁.find? p = none) : (l₁ ++ l₂).find? p = l₂.find? p := by
  rw [List.find?_append, h, Option.none_or]

/-! ## C5 — infix expressions take the left operand's type -/

/-- C5: for every infix expression whose two operands both check
successfully, `check_infix_expression` succeeds, returns the left
operand's inferred type, and records that same reference on the node's
`infix_type` field, even when the right operand's type differs. -/
theorem C5_infix_left_type (st : SymbolTable) (l r : ExpressionStatement)
    (it : Option TypeReference) (l' r' : ExpressionStatement)
    (lt rt : TypeReference)
    (hl : check_expression st l = (l', .ok lt))
    (hr : check_expression st r = (r', .ok rt)) :
    check_infix_expression st (.mk l r it) = (.mk l' r' (some lt), .ok lt) := by
  rw [check_infix_expression, hl, hr]

/-- C5 witness: a concrete infix expression over two unhandled operand
kinds, whose types coincide with the placeholder. -/
theorem C5_infix_left_type_witness :
    check_infix_expression ⟨[]⟩ (.mk .Other .Other none) =
      (.mk .Other .Other (some (TypeReference.new 0)), .ok (TypeReference.new 0)) :=
  C5_infix_left_type ⟨[]⟩ .Other .Other none .Other .Other
    (TypeReference.new 0) (TypeReference.new 0) rfl rfl

/-! ## C6 — variable references -/

/-- C6: a variable reference fails with `VariableNotFound` when no value
symbol with that name is visible, fails with `CannotInfer` when a symbol
exists without a resolved type, and otherwise succeeds, returning the
symbol's type and recording it on the node's `variable_type` field. -/
theorem C6_variable_expression (st : SymbolTable) (e : VariableExpression) :
    (st.find_symbol e.variable_name = none →
      check_variable_expression st e =
        (e, .error (.VariableNotFound e.variable_name))) ∧
    (∀ sym, st.find_symbol e.variable_name = some sym → sym.get_type = none →
      check_variable_expression st e =
        (e, .error (.CannotInfer e.variable_name))) ∧
    (∀ sym t, st.find_symbol e.variable_name = some sym → sym.get_type = some t →
      check_variable_expression st e =
        ({ e with variable_type := some t }, .ok t)) := by
  refine ⟨fun h => ?_, fun sym h h2 => ?_, fun sym t h h2 => ?_⟩
  · simp [check_variable_expression, h]
  · simp [check_variable_expression, h, h2]
  · simp [check_variable_expression, h, h2]

/-- C6 witness: the three outcomes at concrete symbol tables. -/
theorem C6_variable_expression_witness :
    check_variable_expression ⟨[Scope.empty]⟩ ⟨"x", none⟩ =
      (⟨"x", none⟩, .error (.VariableNotFound "x")) ∧
    check_variable_expression ⟨[⟨[], [⟨"x", none⟩]⟩]⟩ ⟨"x", none⟩ =
      (⟨"x", none⟩, .error (.CannotInfer "x")) ∧
    check_variable_expression ⟨[⟨[], [⟨"x", some ⟨5⟩⟩]⟩]⟩ ⟨"x", none⟩ =
      (⟨"x", some ⟨5⟩⟩, .ok ⟨5⟩) :=
  ⟨(C6_variable_expression ⟨[Scope.empty]⟩ ⟨"x", none⟩).1 (by decide),
   (C6_variable_expression ⟨[⟨[], [⟨"x", none⟩]⟩]⟩ ⟨"x", none⟩).2.1
     ⟨"x", none⟩ (by decide) rfl,
   (C6_variable_expression ⟨[⟨[], [⟨"x", some ⟨5⟩⟩]⟩]⟩ ⟨"x", none⟩).2.2
     ⟨"x", some ⟨5⟩⟩ ⟨5⟩ (by decide) rfl⟩

/-! ## C7 — literal expressions -/

/-- C7: a float literal is typed by looking up the built-in name `f32`, an
integer literal by `i32`; on success the found reference is returned and
recorded on the node, and when the built-in name is not registered in any
visible scope the check fails with `TypeNotFound` for that name. -/
theorem C7_literal_expression (st : SymbolTable) (e : LiteralExpression) :
    (e.literal_expression_type = .Float →
      (∀ t, st.find_type_or_err "f32" = .ok t →
        check_literal_expression st e = ({ e with literal_type := some t }, .ok t)) ∧
      (findTypeAux "f32" st.scopes = none →
        check_literal_expression st e = (e, .error (.TypeNotFound "f32")))) ∧
    (e.literal_expression_type = .Int →
      (∀ t, st.find_type_or_err "i32" = .ok t →
        check_literal_expression st e = ({ e with literal_type := some t }, .ok t)) ∧
      (findTypeAux "i32" st.scopes = none →
        check_literal_expression st e = (e, .error (.TypeNotFound "i32")))) := by
  constructor
  · intro hk
    constructor
    · intro t h
      simp [check_literal_expression, hk, h]
    · intro h
      simp [check_literal_expression, hk, SymbolTable.find_type_or_err, h]
  · intro hk
    constructor
    · intro t h
      simp [check_literal_expression, hk, h]
    · intro h
      simp [check_literal_expression, hk, SymbolTable.find_type_or_err, h]

/-- C7 witness: both literal kinds against a table with `f32` registered
but `i32` missing. -/
theorem C7_literal_expression_witness :
    check_literal_expression ⟨[⟨[("f32", ⟨0⟩)], []⟩]⟩ ⟨.Float, none⟩ =
      (⟨.Float, some ⟨0⟩⟩, .ok ⟨0⟩) ∧
    check_literal_expression ⟨[⟨[("f32", ⟨0⟩)], []⟩]⟩ ⟨.Int, none⟩ =
      (⟨.Int, none⟩, .error (.TypeNotFound "i32")) :=
  ⟨((C7_literal_expression ⟨[⟨[("f32", ⟨0⟩)], []⟩]⟩ ⟨.Float, none⟩).1 rfl).1
     ⟨0⟩ rfl,
   ((C7_literal_expression ⟨[⟨[("f32", ⟨0⟩)], []⟩]⟩ ⟨.Int, none⟩).2 rfl).2
     (by decide)⟩

/-! ## C9 — struct instantiation expressions -/

/-- C9: when the struct type name resolves and every field initializer
checks successfully, the expression's type is exactly the resolved struct
type (also recorded on the node's `struct_type` field), independent of the
types inferred for the initializers. -/
theorem C9_struct_instantiation_type (st : SymbolTable) (name : String)
    (inits : List StructFieldInitializer) (sty : Option TypeReference)
    (t : TypeReference) (inits' : List StructFieldInitializer)
    (h1 : st.find_type_or_err name = .ok t)
    (h2 : check_struct_field_initializers st inits = (inits', .ok ())) :
    check_struct_instatiation_expression st (.mk name inits sty) =
      (.mk name inits' (some t), .ok t) := by
  rw [check_struct_instatiation_expression, h1, h2]

/-- C9 witness: instantiating a registered struct `S` with one literal
field whose inferred type (`f32`) differs from `S` itself. -/
theorem C9_struct_instantiation_type_witness :
    check_struct_instatiation_expression ⟨[⟨[("f32", ⟨0⟩), ("S", ⟨1⟩)], []⟩]⟩
      (.mk "S" [.mk (.Literal ⟨.Float, none⟩) none] none) =
      (.mk "S" [.mk (.Literal ⟨.Float, some ⟨0⟩⟩) (some ⟨0⟩)] (some ⟨1⟩), .ok ⟨1⟩) :=
  C9_struct_instantiation_type ⟨[⟨[("f32", ⟨0⟩), ("S", ⟨1⟩)], []⟩]⟩ "S"
    [.mk (.Literal ⟨.Float, none⟩) none] none ⟨1⟩
    [.mk (.Literal ⟨.Float, some ⟨0⟩⟩) (some ⟨0⟩)] rfl rfl

/-! ## C8 — unresolved type names fail with TypeNotFound, field unwritten -/

/-- C8: a struct member, constant, or cast declaration whose referenced
type name resolves in no visible scope makes its checking step fail with
`TypeNotFound(name)`, and the resolved-type field of the failing
declaration (`struct_member_type`, `constant_type`) is left exactly as it
was — the failing step writes nothing.  A cast references two type names:
an unresolvable source endpoint fails with `TypeNotFound(source)`, and a
resolvable source with an unresolvable target fails with
`TypeNotFound(target)` (cast declarations carry no resolved-type field). -/
theorem C8_type_not_found_leaves_field_unset :
    (∀ (st : SymbolTable) (c : ConstantDefinition) (rest : List ConstantDefinition)
        (st1 : SymbolTable),
      st.add_symbol c.constant_name = .ok st1 →
      findTypeAux c.constant_type_name st1.scopes = none →
      check_constant st (c :: rest) =
        (st1, c :: rest, .error (.TypeNotFound c.constant_type_name))) ∧
    (∀ (st : SymbolTable) (m : StructMember) (rest : List StructMember),
      findTypeAux m.struct_member_type_name st.scopes = none →
      check_struct_members st (m :: rest) =
        (m :: rest, .error (.TypeNotFound m.struct_member_type_name))) ∧
    (∀ (st : SymbolTable) (te : TypeEnvironment) (c : CastDeclaration)
        (rest : List CastDeclaration),
      findTypeAux c.source_type st.scopes = none →
      check_casts true te st (c :: rest) = (te, .error (.TypeNotFound c.source_type))) ∧
    (∀ (st : SymbolTable) (te : TypeEnvironment) (c : CastDeclaration)
        (rest : List CastDeclaration) (rs : TypeReference),
      findTypeAux c.source_type st.scopes = some rs →
      findTypeAux c.target_type st.scopes = none →
      check_casts true te st (c :: rest) = (te, .error (.TypeNotFound c.target_type))) := by
  refine ⟨fun st c rest st1 h1 h2 => ?_, fun st m rest h => ?_,
    fun st te c rest h => ?_, fun st te c rest rs hs ht => ?_⟩
  · simp [check_constant, h1, SymbolTable.find_type_or_err, h2]
  · simp [check_struct_members, SymbolTable.find_type_or_err, h]
  · simp [check_casts, check_casts_loop, SymbolTable.find_type_or_err, h]
  · simp [check_casts, check_casts_loop, SymbolTable.find_type_or_err, hs, ht]

/-- C8 witness: a constant, a struct member, a cast with an undeclared
source, and a cast whose source `A` resolves but whose target does not,
all naming the undeclared type `Nope`. -/
theorem C8_type_not_found_leaves_field_unset_witness :
    check_constant ⟨[Scope.empty]⟩ [⟨"c", "Nope", none⟩] =
      (⟨[⟨[], [⟨"c", none⟩]⟩]⟩, [⟨"c", "Nope", none⟩], .error (.TypeNotFound "Nope")) ∧
    check_struct_members ⟨[Scope.empty]⟩ [⟨"x", "Nope", none⟩] =
      ([⟨"x", "Nope", none⟩], .error (.TypeNotFound "Nope")) ∧
    check_casts true ⟨[]⟩ ⟨[Scope.empty]⟩ [⟨.Implicit, "Nope", "Nope"⟩] =
      (⟨[]⟩, .error (.TypeNotFound "Nope")) ∧
    check_casts true ⟨[⟨"A", [], []⟩]⟩ ⟨[⟨[("A", ⟨0⟩)], []⟩]⟩
        [⟨.Explicit, "A", "Nope"⟩] =
      (⟨[⟨"A", [], []⟩]⟩, .error (.TypeNotFound "Nope")) :=
  ⟨C8_type_not_found_leaves_field_unset.1 ⟨[Scope.empty]⟩ ⟨"c", "Nope", none⟩ []
     ⟨[⟨[], [⟨"c", none⟩]⟩]⟩ rfl (by decide),
   C8_type_not_found_leaves_field_unset.2.1 ⟨[Scope.empty]⟩ ⟨"x", "Nope", none⟩ []
     (by decide),
   C8_type_not_found_leaves_field_unset.2.2.1 ⟨[Scope.empty]⟩ ⟨[]⟩
     ⟨.Implicit, "Nope", "Nope"⟩ [] (by decide),
   C8_type_not_found_leaves_field_unset.2.2.2 ⟨[⟨[("A", ⟨0⟩)], []⟩]⟩
     ⟨[⟨"A", [], []⟩]⟩ ⟨.Explicit, "A", "Nope"⟩ [] ⟨0⟩ (by decide) (by decide)⟩

/-! ## C2 — duplicate cast edges -/

/-- Looking up the source entry after adding an implicit edge on it. -/
theorem find_type_mut_add_implicit_self (te : TypeEnvironment)
    (s t : TypeReference) (es : TypeEntry) (h : te.find_type_mut s = some es) :
    (te.add_implicit_cast s t).find_type_mut s =
      some { es with implicit_casts := es.implicit_casts ++ [t] } := by
  unfold TypeEnvironment.find_type_mut at h
  obtain ⟨hlt, -⟩ := List.getElem?_eq_some.1 h
  simp [TypeEnvironment.add_implicit_cast, TypeEnvironment.find_type_mut, h,
    List.getElem?_set_eq_of_lt _ hlt]

/-- Looking up the source entry after adding an explicit edge on it. -/
theorem find_type_mut_add_explicit_self (te : TypeEnvironment)
    (s t : TypeReference) (es : TypeEntry) (h : te.find_type_mut s = some es) :
    (te.add_explicit_cast s t).find_type_mut s =
      some { es with explicit_casts := es.explicit_casts ++ [t] } := by
  unfold TypeEnvironment.find_type_mut at h
  obtain ⟨hlt, -⟩ := List.getElem?_eq_some.1 h
  simp [TypeEnvironment.add_explicit_cast, TypeEnvironment.find_type_mut, h,
    List.getElem?_set_eq_of_lt _ hlt]

/-- Adding an implicit edge on one entry leaves every other entry as it
was. -/
theorem find_type_mut_add_implicit_ne (te : TypeEnvironment)
    (s t r : TypeReference) (h : s.id ≠ r.id) :
    (te.add_implicit_cast s t).find_type_mut r = te.find_type_mut r := by
  unfold TypeEnvironment.add_implicit_cast
  cases hts : te.types[s.id]? with
  | none => rfl
  | some entry =>
      simp [TypeEnvironment.find_type_mut, List.getElem?_set_ne h]

/-- Adding an explicit edge on one entry leaves every other entry as it
was. -/
theorem find_type_mut_add_explicit_ne (te : TypeEnvironment)
    (s t r : TypeReference) (h : s.id ≠ r.id) :
    (te.add_explicit_cast s t).find_type_mut r = te.find_type_mut r := by
  unfold TypeEnvironment.add_explicit_cast
  cases hts : te.types[s.id]? with
  | none => rfl
  | some entry =>
      simp [TypeEnvironment.find_type_mut, List.getElem?_set_ne h]

/-- An entry sees the implicit edge just appended to it. -/
theorem does_cast_exist_append_implicit (es : TypeEntry) (t : TypeReference) :
    TypeEntry.does_cast_exist
      { es with implicit_casts := es.implicit_casts ++ [t] } t = true := by
  simp [TypeEntry.does_cast_exist]

/-- An entry sees the explicit edge just appended to it. -/
theorem does_cast_exist_append_explicit (es : TypeEntry) (t : TypeReference) :
    TypeEntry.does_cast_exist
      { es with explicit_casts := es.explicit_casts ++ [t] } t = true := by
  simp [TypeEntry.does_cast_exist]

/-- C2: in a core module, once a cast between a resolved pair (source,
target) with no pre-existing edge is declared, a second declaration for
the same pair — whatever the Implicit/Explicit kinds of either
declaration — fails with `CastAlreadyDeclared(source, target)`, while the
declaration of the reverse pair (target, source) is accepted. -/
theorem C2_duplicate_cast (te : TypeEnvironment) (st : SymbolTable)
    (sname tname : String) (rs rt : TypeReference) (k1 k2 : CastType)
    (es et : TypeEntry)
    (hs : st.find_type_or_err sname = .ok rs)
    (ht : st.find_type_or_err tname = .ok rt)
    (hes : te.find_type_mut rs = some es)
    (het : te.find_type_mut rt = some et)
    (hno_st : es.does_cast_exist rt = false)
    (hno_ts : et.does_cast_exist rs = false)
    (hne : rs.id ≠ rt.id) :
    (check_casts true te st [⟨k1, sname, tname⟩, ⟨k2, sname, tname⟩]).2 =
      .error (.CastAlreadyDeclared sname tname) ∧
    (check_casts true te st [⟨k1, sname, tname⟩, ⟨k2, tname, sname⟩]).2 = .ok () := by
  cases k1 <;> cases k2 <;>
    simp [check_casts, check_casts_loop, hs, ht, hes, het, hno_st, hno_ts,
      find_type_mut_add_implicit_self te rs rt es hes,
      find_type_mut_add_explicit_self te rs rt es hes,
      find_type_mut_add_implicit_ne te rs rt rt hne,
      find_type_mut_add_explicit_ne te rs rt rt hne,
      does_cast_exist_append_implicit, does_cast_exist_append_explicit,
      find_type_mut_add_implicit_self, find_type_mut_add_explicit_self]

/-- C2 witness: two declared types `A`, `B` with no pre-existing edges. -/
theorem C2_duplicate_cast_witness :
    (check_casts true ⟨[⟨"A", [], []⟩, ⟨"B", [], []⟩]⟩
        ⟨[⟨[("A", ⟨0⟩), ("B", ⟨1⟩)], []⟩]⟩
        [⟨.Implicit, "A", "B"⟩, ⟨.Explicit, "A", "B"⟩]).2 =
      .error (.CastAlreadyDeclared "A" "B") ∧
    (check_casts true ⟨[⟨"A", [], []⟩, ⟨"B", [], []⟩]⟩
        ⟨[⟨[("A", ⟨0⟩), ("B", ⟨1⟩)], []⟩]⟩
        [⟨.Implicit, "A", "B"⟩, ⟨.Explicit, "B", "A"⟩]).2 = .ok () :=
  C2_duplicate_cast ⟨[⟨"A", [], []⟩, ⟨"B", [], []⟩]⟩
    ⟨[⟨[("A", ⟨0⟩), ("B", ⟨1⟩)], []⟩]⟩ "A" "B" ⟨0⟩ ⟨1⟩ .Implicit .Explicit
    ⟨"A", [], []⟩ ⟨"B", [], []⟩ rfl rfl rfl rfl rfl rfl (by decide)

/-! ## C4 — primitives and casts outside the core module -/

/-- A non-core module holding one cast declaration and a struct whose
member names an undeclared type. -/
def nonCoreCastModule : Module :=
  ⟨false, [], [⟨"S", [⟨"x", "Nope", none⟩], none⟩], [⟨.Implicit, "A", "B"⟩], [], []⟩

/-- C4 counterexample: a non-core module with a cast declaration on which
`type_check` fails with `TypeNotFound("Nope")` — the struct phase fails
before the cast phase is reached — and not with
`SyntaxOnlyValidInCoreModule` as the claim requires. -/
theorem C4_counterexample :
    nonCoreCastModule.is_core = false ∧
    nonCoreCastModule.casts ≠ [] ∧
    (type_check ⟨[]⟩ SymbolTable.new nonCoreCastModule).2.2.2 =
      .error (.TypeNotFound "Nope") ∧
    (type_check ⟨[]⟩ SymbolTable.new nonCoreCastModule).2.2.2 ≠
      .error .SyntaxOnlyValidInCoreModule := by
  refine ⟨rfl, by decide, rfl, ?_⟩
  intro h
  have h0 : (type_check ⟨[]⟩ SymbolTable.new nonCoreCastModule).2.2.2 =
      .error (.TypeNotFound "Nope") := rfl
  rw [h0] at h
  exact absurd (Except.error.inj h) (by decide)

/-- C4 amended: in a non-core module, a primitive declaration always makes
`type_check` fail with `SyntaxOnlyValidInCoreModule`; a cast declaration
does so provided the struct-checking phase did not already fail with its
own error first.  In both cases the type names referenced by the
primitive/cast declarations are never consulted. -/
theorem C4_non_core_module (te : TypeEnvironment) (st : SymbolTable) (m : Module)
    (hc : m.is_core = false) :
    (m.primitives ≠ [] →
      (type_check te st m).2.2.2 = .error .SyntaxOnlyValidInCoreModule) ∧
    (m.primitives = [] → m.casts ≠ [] →
      (check_structs te st.enter_scope m.structs).2.2.2 = .ok () →
      (type_check te st m).2.2.2 = .error .SyntaxOnlyValidInCoreModule) := by
  constructor
  · intro hp
    have hl : 0 < m.primitives.length := List.length_pos.mpr hp
    simp [type_check, check_primitives, hc, hl]
  · intro hp hcasts hs
    have hl : 0 < m.casts.length := List.length_pos.mpr hcasts
    rcases hcs : check_structs te st.enter_scope m.structs with ⟨te2, st2, structs', r2⟩
    rw [hcs] at hs
    simp only at hs
    subst hs
    simp [type_check, check_primitives, hp, check_primitives_loop, hcs,
      check_casts, hc, hl]

/-- C4 witness: a non-core module with one primitive, and a non-core module
with one cast and no structs. -/
theorem C4_non_core_module_witness :
    (type_check ⟨[]⟩ SymbolTable.new ⟨false, [⟨"p", none⟩], [], [], [], []⟩).2.2.2 =
      .error .SyntaxOnlyValidInCoreModule ∧
    (type_check ⟨[]⟩ SymbolTable.new
        ⟨false, [], [], [⟨.Explicit, "A", "B"⟩], [], []⟩).2.2.2 =
      .error .SyntaxOnlyValidInCoreModule :=
  ⟨(C4_non_core_module ⟨[]⟩ SymbolTable.new
      ⟨false, [⟨"p", none⟩], [], [], [], []⟩ rfl).1 (by decide),
   (C4_non_core_module ⟨[]⟩ SymbolTable.new
      ⟨false, [], [], [⟨.Explicit, "A", "B"⟩], [], []⟩ rfl).2 rfl (by decide) rfl⟩

/-! ## C1 — scope-stack balance -/

/-- `add_symbol` never changes the number of scopes. -/
theorem depth_add_symbol {st st' : SymbolTable} {n : String}
    (h : st.add_symbol n = .ok st') : st'.scopes.length = st.scopes.length := by
  cases hs : st.scopes with
  | nil => simp [SymbolTable.add_symbol, hs] at h
  | cons scope rest =>
      simp only [SymbolTable.add_symbol, hs] at h
      split at h
      · cases h
      · injection h with h2
        subst h2
        simp [hs]

/-- `add_symbol_with_type` never changes the number of scopes. -/
theorem depth_add_symbol_with_type {st st' : SymbolTable} {n : String}
    {r : TypeReference} (h : st.add_symbol_with_type n r = .ok st') :
    st'.scopes.length = st.scopes.length := by
  cases hs : st.scopes with
  | nil => simp [SymbolTable.add_symbol_with_type, hs] at h
  | cons scope rest =>
      simp only [SymbolTable.add_symbol_with_type, hs] at h
      split at h
      · cases h
      · injection h with h2
        subst h2
        simp [hs]

/-- `add_type` never changes the number of scopes. -/
theorem depth_add_type {st st' : SymbolTable} {n : String} {r : TypeReference}
    (h : st.add_type n r = .ok st') : st'.scopes.length = st.scopes.length := by
  cases hs : st.scopes with
  | nil => simp [SymbolTable.add_type, hs] at h
  | cons scope rest =>
      simp only [SymbolTable.add_type, hs] at h
      split at h
      · cases h
      · injection h with h2
        subst h2
        simp [hs]

/-- The global-scope insertion keeps the number of scopes. -/
theorem depth_addGlobalTypeAux (n : String) (r : TypeReference) :
    ∀ (l l' : List Scope), addGlobalTypeAux n r l = .ok l' → l'.length = l.length
  | [], _, h => by cases h
  | [g], l', h => by
      unfold addGlobalTypeAux at h
      split at h
      · cases h
      · cases h; rfl
  | s :: s2 :: rest, l', h => by
      unfold addGlobalTypeAux at h
      cases haux : addGlobalTypeAux n r (s2 :: rest) with
      | error e => rw [haux] at h; cases h
      | ok l2 =>
          rw [haux] at h
          cases h
          have := depth_addGlobalTypeAux n r (s2 :: rest) l2 haux
          simp [this]

/-- `add_global_type` never changes the number of scopes. -/
theorem depth_add_global_type {st st' : SymbolTable} {n : String}
    {r : TypeReference} (h : st.add_global_type n r = .ok st') :
    st'.scopes.length = st.scopes.length := by
  unfold SymbolTable.add_global_type at h
  cases haux : addGlobalTypeAux n r st.scopes with
  | error e => rw [haux] at h; cases h
  | ok l' =>
      rw [haux] at h
      cases h
      exact depth_addGlobalTypeAux n r st.scopes l' haux

/-- Filling in a symbol's type keeps the number of scopes. -/
theorem depth_resolveSymbolTypeAux (n : String) (r : TypeReference) :
    ∀ (l l' : List Scope), resolveSymbolTypeAux n r l = .ok l' → l'.length = l.length
  | [], _, h => by cases h
  | s :: rest, l', h => by
      unfold resolveSymbolTypeAux at h
      split at h
      · cases h; simp
      · cases haux : resolveSymbolTypeAux n r rest with
        | error e => rw [haux] at h; cases h
        | ok l2 =>
            rw [haux] at h
            cases h
            have := depth_resolveSymbolTypeAux n r rest l2 haux
            simp [this]

/-- `resolve_symbol_type` never changes the number of scopes. -/
theorem depth_resolve_symbol_type {st st' : SymbolTable} {n : String}
    {r : TypeReference} (h : st.resolve_symbol_type n r = .ok st') :
    st'.scopes.length = st.scopes.length := by
  unfold SymbolTable.resolve_symbol_type at h
  cases haux : resolveSymbolTypeAux n r st.scopes with
  | error e => rw [haux] at h; cases h
  | ok l' =>
      rw [haux] at h
      cases h
      exact depth_resolveSymbolTypeAux n r st.scopes l' haux

/-- The primitive loop preserves the number of scopes, whatever its
outcome. -/
theorem scopes_len_check_primitives_loop :
    ∀ (prims : List PrimitiveDeclaration) (te : TypeEnvironment) (st : SymbolTable),
      ((check_primitives_loop te st prims).2.1).scopes.length = st.scopes.length
  | [], _, _ => rfl
  | p :: rest, te, st => by
      simp only [check_primitives_loop, TypeEnvironment.create_type]
      cases hg : st.add_global_type p.type_name ⟨te.types.length⟩ with
      | error e => simp [hg]
      | ok st1 =>
          simp only [hg]
          rcases hrec : check_primitives_loop ⟨te.types ++ [⟨p.type_name, [], []⟩]⟩
              st1 rest with ⟨te2, st2, rest2, r2⟩
          have h2 := scopes_len_check_primitives_loop rest
            ⟨te.types ++ [⟨p.type_name, [], []⟩]⟩ st1
          rw [hrec] at h2
          simp only [hrec]
          rw [h2, depth_add_global_type hg]

/-- `check_primitives` preserves the number of scopes. -/
theorem scopes_len_check_primitives (is_core : Bool) (te : TypeEnvironment)
    (st : SymbolTable) (prims : List PrimitiveDeclaration) :
    ((check_primitives is_core te st prims).2.1).scopes.length = st.scopes.length := by
  unfold check_primitives
  split
  · rfl
  · exact scopes_len_check_primitives_loop prims te st

/-- The first struct sub-pass preserves the number of scopes. -/
theorem scopes_len_check_structs_pass1 :
    ∀ (structs : List StructDefinition) (te : TypeEnvironment) (st : SymbolTable),
      ((check_structs_pass1 te st structs).2.1).scopes.length = st.scopes.length
  | [], _, _ => rfl
  | s :: rest, te, st => by
      simp only [check_structs_pass1]
      cases ha : st.add_symbol s.struct_name with
      | error e => simp [ha]
      | ok st1 =>
          simp only [ha, TypeEnvironment.create_type]
          cases ht : st1.add_type s.struct_name ⟨te.types.length⟩ with
          | error e => simp [ht, depth_add_symbol ha]
          | ok st2 =>
              simp only [ht]
              rcases hrec : check_structs_pass1 ⟨te.types ++ [⟨s.struct_name, [], []⟩]⟩
                  st2 rest with ⟨te2, st3, rest2, r2⟩
              have h2 := scopes_len_check_structs_pass1 rest
                ⟨te.types ++ [⟨s.struct_name, [], []⟩]⟩ st2
              rw [hrec] at h2
              simp only [hrec]
              rw [h2, depth_add_type ht, depth_add_symbol ha]

/-- `check_structs` preserves the number of scopes. -/
theorem scopes_len_check_structs (te : TypeEnvironment) (st : SymbolTable)
    (structs : List StructDefinition) :
    ((check_structs te st structs).2.1).scopes.length = st.scopes.length := by
  unfold check_structs
  rcases h1 : check_structs_pass1 te st structs with ⟨te1, st1, structs1, r1⟩
  have hl := scopes_len_check_structs_pass1 structs te st
  rw [h1] at hl
  cases r1 with
  | error e => simpa using hl
  | ok u =>
      rcases h2 : check_structs_pass2 st1 structs1 with ⟨structs2, r2⟩
      simpa [h2] using hl

/-- The constant loop preserves the number of scopes. -/
theorem scopes_len_check_constant :
    ∀ (constants : List ConstantDefinition) (st : SymbolTable),
      ((check_constant st constants).1).scopes.length = st.scopes.length
  | [], _ => rfl
  | c :: rest, st => by
      simp only [check_constant]
      cases ha : st.add_symbol c.constant_name with
      | error e => simp [ha]
      | ok st1 =>
          simp only [ha]
          cases hf : st1.find_type_or_err c.constant_type_name with
          | error e => simp [hf, depth_add_symbol ha]
          | ok type_ref =>
              simp only [hf]
              cases hr : st1.resolve_symbol_type c.constant_name type_ref with
              | error e => simp [hr, depth_add_symbol ha]
              | ok st2 =>
                  simp only [hr]
                  rcases hrec : check_constant st2 rest with ⟨st3, rest2, r2⟩
                  have h2 := scopes_len_check_constant rest st2
                  rw [hrec] at h2
                  simp only [hrec]
                  rw [h2, depth_resolve_symbol_type hr, depth_add_symbol ha]

/-- The argument loop preserves the number of scopes. -/
theorem scopes_len_check_arguments :
    ∀ (args : List FunctionArgument) (st : SymbolTable),
      ((check_arguments st args).1).scopes.length = st.scopes.length
  | [], _ => rfl
  | a :: rest, st => by
      simp only [check_arguments]
      cases hf : st.find_type_or_err a.argument_type_name with
      | error e => simp [hf]
      | ok type_ref =>
          simp only [hf]
          cases ha : st.add_symbol_with_type a.argument_name type_ref with
          | error e => simp [ha]
          | ok st1 =>
              simp only [ha]
              rcases hrec : check_arguments st1 rest with ⟨st2, rest2, r2⟩
              have h2 := scopes_len_check_arguments rest st1
              rw [hrec] at h2
              simp only [hrec]
              rw [h2, depth_add_symbol_with_type ha]

/-- The statement loop preserves the number of scopes. -/
theorem scopes_len_check_block_statements :
    ∀ (stmts : List BlockStatement) (st : SymbolTable),
      ((check_block_statements st stmts).1).scopes.length = st.scopes.length
  | [], _ => rfl
  | .Local ld :: rest, st => by
      simp only [check_block_statements]
      rcases he : check_expression st ld.expression with ⟨e', r⟩
      cases r with
      | error err => simp [he]
      | ok t =>
          simp only [he]
          cases ha : st.add_symbol_with_type ld.symbol_name t with
          | error err => simp [ha]
          | ok st1 =>
              simp only [ha]
              rcases hrec : check_block_statements st1 rest with ⟨st2, rest2, r2⟩
              have h2 := scopes_len_check_block_statements rest st1
              rw [hrec] at h2
              simp only [hrec]
              rw [h2, depth_add_symbol_with_type ha]
  | .Return rd :: rest, st => by
      simp only [check_block_statements]
      rcases he : check_expression st rd.expression with ⟨e', r⟩
      cases r with
      | error err => simp [he]
      | ok t =>
          simp only [he]
          rcases hrec : check_block_statements st rest with ⟨st2, rest2, r2⟩
          have h2 := scopes_len_check_block_statements rest st
          rw [hrec] at h2
          simp only [hrec]
          rw [h2]
  | .Expression es :: rest, st => by
      simp only [check_block_statements]
      rcases he : check_expression st es with ⟨e', r⟩
      cases r with
      | error err => simp [he]
      | ok t =>
          simp only [he]
          rcases hrec : check_block_statements st rest with ⟨st2, rest2, r2⟩
          have h2 := scopes_len_check_block_statements rest st
          rw [hrec] at h2
          simp only [hrec]
          rw [h2]

/-- On its success path `check_block` restores the number of scopes. -/
theorem scopes_len_check_block_ok {st st' : SymbolTable} {b b' : BlockDeclaration}
    (h : check_block st b = (st', b', .ok ())) :
    st'.scopes.length = st.scopes.length := by
  unfold check_block at h
  rcases hs : check_block_statements st.enter_scope b.statements with ⟨st1, stmts1, r1⟩
  rw [hs] at h
  have hl := scopes_len_check_block_statements b.statements st.enter_scope
  rw [hs] at hl
  cases r1 with
  | error e => cases h
  | ok u =>
      cases h
      simp only [SymbolTable.leave_scope, List.length_tail]
      rw [hl]
      simp [SymbolTable.enter_scope]

/-- On its success path `check_functions` restores the number of scopes. -/
theorem scopes_len_check_functions_ok :
    ∀ (fs : List FunctionDeclaration) (te : TypeEnvironment) (st : SymbolTable)
      (te' : TypeEnvironment) (st' : SymbolTable) (fs' : List FunctionDeclaration),
      check_functions te st fs = (te', st', fs', .ok ()) →
      st'.scopes.length = st.scopes.length := by
  intro fs
  induction fs with
  | nil =>
      intro te st te' st' fs' h
      unfold check_functions at h
      simp only [Prod.mk.injEq] at h
      obtain ⟨-, h2, -, -⟩ := h
      rw [← h2]
  | cons f rest ih =>
      intro te st te' st' fs' h
      unfold check_functions at h
      simp only [TypeEnvironment.create_type] at h
      cases ha : st.add_symbol_with_type f.function_name ⟨te.types.length⟩ with
      | error e => rw [ha] at h; simp at h
      | ok st1 =>
          rw [ha] at h
          simp only [Except.ok.injEq] at h
          rcases hargs : check_arguments st1.enter_scope f.arguments with ⟨st3, args', r3⟩
          rw [hargs] at h
          have hlargs := scopes_len_check_arguments f.arguments st1.enter_scope
          rw [hargs] at hlargs
          cases r3 with
          | error e => simp at h
          | ok u =>
              cases u
              simp only at h
              cases hrt : st3.find_type_or_err f.return_type_name with
              | error e => rw [hrt] at h; simp at h
              | ok type_ref =>
                  rw [hrt] at h
                  simp only at h
                  rcases hb : check_block st3 f.block with ⟨st4, block', r4⟩
                  rw [hb] at h
                  cases r4 with
                  | error e => simp at h
                  | ok u =>
                      cases u
                      simp only at h
                      rcases hrec : check_functions ⟨te.types ++ [⟨f.function_name, [], []⟩]⟩
                          st4.leave_scope rest with ⟨te5, st5, rest5, r5⟩
                      rw [hrec] at h
                      simp only [Prod.mk.injEq] at h
                      obtain ⟨-, h2, -, h4⟩ := h
                      rw [h4] at hrec
                      have h5 := ih ⟨te.types ++ [⟨f.function_name, [], []⟩]⟩
                        st4.leave_scope te5 st5 rest5 hrec
                      have hb4 := scopes_len_check_block_ok hb
                      have h1 := depth_add_symbol_with_type ha
                      rw [← h2, h5]
                      simp only [SymbolTable.leave_scope, List.length_tail]
                      rw [hb4, hlargs]
                      simp only [SymbolTable.enter_scope, List.length_cons]
                      rw [h1]
                      omega

/-- A non-core module holding a single primitive declaration. -/
def nonCorePrimitiveModule : Module := ⟨false, [⟨"f32", none⟩], [], [], [], []⟩

/-- C1 counterexample: on this failing `type_check` run the module scope is
never left, so the scope depth afterwards (1) differs from the depth
before the check began (0) — the claim is false for runs that return an
error. -/
theorem C1_counterexample :
    (type_check ⟨[]⟩ SymbolTable.new nonCorePrimitiveModule).2.2.2 =
      .error .SyntaxOnlyValidInCoreModule ∧
    SymbolTable.new.depth = 0 ∧
    (type_check ⟨[]⟩ SymbolTable.new nonCorePrimitiveModule).2.1.depth = 1 :=
  ⟨rfl, rfl, rfl⟩

/-- C1 amended: after a full run of `type_check` that returns success the
Symbol Table's scope depth equals its depth before the check began (on the
failure path the depth can remain strictly larger, as the counterexample
shows). -/
theorem C1_scope_depth (te : TypeEnvironment) (st : SymbolTable) (m : Module)
    (h : (type_check te st m).2.2.2 = .ok ()) :
    (type_check te st m).2.1.depth = st.depth := by
  simp only [type_check] at h ⊢
  rcases hp : check_primitives m.is_core te st.enter_scope m.primitives
    with ⟨te1, st1, prims', r1⟩
  have hl1 := scopes_len_check_primitives m.is_core te st.enter_scope m.primitives
  rw [hp] at hl1
  simp only [hp] at h ⊢
  cases r1 with
  | error e => simp at h
  | ok u =>
      cases u
      simp only at h ⊢
      rcases hs : check_structs te1 st1 m.structs with ⟨te2, st2, structs', r2⟩
      have hl2 := scopes_len_check_structs te1 st1 m.structs
      rw [hs] at hl2
      simp only [hs] at h ⊢
      cases r2 with
      | error e => simp at h
      | ok u =>
          cases u
          simp only at h ⊢
          rcases hc : check_casts m.is_core te2 st2 m.casts with ⟨te3, r3⟩
          simp only [hc] at h ⊢
          cases r3 with
          | error e => simp at h
          | ok u =>
              cases u
              simp only at h ⊢
              rcases hk : check_constant st2 m.constants with ⟨st3, consts', r4⟩
              have hl3 := scopes_len_check_constant m.constants st2
              rw [hk] at hl3
              simp only [hk] at h ⊢
              cases r4 with
              | error e => simp at h
              | ok u =>
                  cases u
                  simp only at h ⊢
                  rcases hf : check_functions te3 st3 m.functions
                    with ⟨te4, st4, funcs', r5⟩
                  simp only [hf] at h ⊢
                  cases r5 with
                  | error e => simp at h
                  | ok u =>
                      cases u
                      have hl4 := scopes_len_check_functions_ok m.functions te3 st3
                        te4 st4 funcs' hf
                      simp only [SymbolTable.depth, SymbolTable.leave_scope,
                        List.length_tail]
                      rw [hl4, hl3, hl2]
                      simp only [SymbolTable.enter_scope, List.length_cons] at hl1
                      rw [hl1]
                      omega

/-- C1 witness: a successful run on a small core module from depth 0. -/
theorem C1_scope_depth_witness :
    (type_check ⟨[]⟩ SymbolTable.new
        ⟨true, [⟨"f32", none⟩], [⟨"S", [⟨"x", "f32", none⟩], none⟩], [], [], []⟩).2.1.depth =
      SymbolTable.new.depth :=
  C1_scope_depth ⟨[]⟩ SymbolTable.new
    ⟨true, [⟨"f32", none⟩], [⟨"S", [⟨"x", "f32", none⟩], none⟩], [], [], []⟩ rfl

/-! ## C3 — forward references among structs -/

/-- Two lists equal under two projections pair their members up. -/
theorem mem_map_pair {α β γ : Type} {f : α → β} {g : α → γ} {l1 l2 : List α}
    (hf : l1.map f = l2.map f) (hg : l1.map g = l2.map g) (x : α) (hx : x ∈ l1) :
    ∃ y ∈ l2, f y = f x ∧ g y = g x := by
  obtain ⟨i, hi, hix⟩ := List.mem_iff_getElem.1 hx
  have hlen : l1.length = l2.length := by
    have := congrArg List.length hf
    simpa using this
  have hi2 : i < l2.length := hlen ▸ hi
  have key : ∀ {δ : Type} (h : α → δ), l1.map h = l2.map h → h l2[i] = h x := by
    intro δ h hmap
    have e1 : (l1.map h)[i]? = (l2.map h)[i]? := by rw [hmap]
    rw [List.getElem?_map, List.getElem?_map, List.getElem?_eq_getElem hi,
      List.getElem?_eq_getElem hi2] at e1
    simp only [Option.map_some'] at e1
    have e2 := Option.some.inj e1
    rw [← e2, hix]
  exact ⟨l2[i], List.getElem_mem hi2, key f hf, key g hg⟩

/-- The member loop of the second struct sub-pass: when every member's type
name resolves, it succeeds and writes on each member exactly the result of
the lookup for its own (unchanged) type name; a predicate on the member
type names is carried through. -/
theorem check_struct_members_ok (P : String → Prop) :
    ∀ (members : List StructMember) (st : SymbolTable),
      (∀ m ∈ members, P m.struct_member_type_name ∧
        (findTypeAux m.struct_member_type_name st.scopes).isSome) →
      ∃ members', check_struct_members st members = (members', .ok ()) ∧
        ∀ m' ∈ members', P m'.struct_member_type_name ∧
          m'.struct_member_type = findTypeAux m'.struct_member_type_name st.scopes
  | [], st, _ => ⟨[], rfl, by simp⟩
  | m :: rest, st, h => by
      obtain ⟨hP, hsome⟩ := h m (by simp)
      obtain ⟨r, hr⟩ := Option.isSome_iff_exists.1 hsome
      obtain ⟨rest', hrec, hrest⟩ :=
        check_struct_members_ok P rest st (fun m2 hm2 => h m2 (by simp [hm2]))
      refine ⟨{ m with struct_member_type := some r } :: rest', ?_, ?_⟩
      · simp only [check_struct_members, SymbolTable.find_type_or_err, hr, hrec]
      · intro m' hm'
        rcases List.mem_cons.1 hm' with hm2 | hm2
        · subst hm2
          exact ⟨hP, by simp [hr]⟩
        · exact hrest m' hm2

/-- The second struct sub-pass: succeeds when every member resolves,
preserves names and `declaring_type`s, and annotates every member with the
lookup result for its own type name. -/
theorem check_structs_pass2_ok (P : String → Prop) :
    ∀ (structs' : List StructDefinition) (st : SymbolTable),
      (∀ s' ∈ structs', ∀ m ∈ s'.struct_member, P m.struct_member_type_name ∧
        (findTypeAux m.struct_member_type_name st.scopes).isSome) →
      ∃ structs'', check_structs_pass2 st structs' = (structs'', .ok ()) ∧
        structs''.map (fun s => s.struct_name) = structs'.map (fun s => s.struct_name) ∧
        structs''.map (fun s => s.declaring_type) =
          structs'.map (fun s => s.declaring_type) ∧
        ∀ s'' ∈ structs'', ∀ m' ∈ s''.struct_member, P m'.struct_member_type_name ∧
          m'.struct_member_type = findTypeAux m'.struct_member_type_name st.scopes
  | [], st, _ => ⟨[], rfl, by simp, by simp, by simp⟩
  | s :: rest, st, h => by
      obtain ⟨members', hm, hmem⟩ :=
        check_struct_members_ok P s.struct_member st (h s (by simp))
      obtain ⟨rest'', hrec, hn, hd, hr⟩ :=
        check_structs_pass2_ok P rest st (fun s2 hs2 => h s2 (by simp [hs2]))
      refine ⟨{ s with struct_member := members' } :: rest'', ?_, ?_, ?_, ?_⟩
      · simp only [check_structs_pass2, hm, hrec]
      · simp [hn]
      · simp [hd]
      · intro s'' hs'' m' hm'
        rcases List.mem_cons.1 hs'' with hs2 | hs2
        · subst hs2
          exact hmem m' hm'
        · exact hr s'' hs2 m' hm'

/-- A type lookup in a scope whose type list got one new pair appended,
for the appended name. -/
theorem scope_find_type_append_new (tl : List (String × TypeReference))
    (sl : List Symbol) (n : String) (r : TypeReference)
    (hbase : (tl.find? fun p => p.1 == n) = none) :
    Scope.find_type ⟨tl ++ [(n, r)], sl⟩ n = some r := by
  unfold Scope.find_type
  simp only []
  rw [find?_append_of_none hbase]
  simp [List.find?]

/-- A type lookup in a scope whose type list got one new pair appended,
for any other name. -/
theorem scope_find_type_append_old (tl : List (String × TypeReference))
    (sl sl' : List Symbol) (n n' : String) (r : TypeReference) (hne : n ≠ n') :
    Scope.find_type ⟨tl ++ [(n, r)], sl⟩ n' = Scope.find_type ⟨tl, sl'⟩ n' := by
  unfold Scope.find_type
  simp only []
  rw [List.find?_append]
  have : ([(n, r)].find? fun p => p.1 == n') = none := by
    simp [List.find?, beq_eq_false_iff_ne.mpr hne]
  rw [this, Option.or_none]

/-- A symbol lookup in a scope whose symbol list got one new symbol
appended, for a different name. -/
theorem scope_find_symbol_append_old (tl : List (String × TypeReference))
    (sl : List Symbol) (n n' : String) (t : Option TypeReference)
    (hbase : (sl.find? fun sym => sym.name == n') = none) (hne : n ≠ n') :
    Scope.find_symbol ⟨tl, sl ++ [⟨n, t⟩]⟩ n' = none := by
  unfold Scope.find_symbol
  simp only []
  rw [find?_append_of_none hbase]
  simp [List.find?, beq_eq_false_iff_ne.mpr hne]

/-- The first struct sub-pass: with pairwise distinct struct names that are
fresh in the current scope, it succeeds, records a fresh `TypeReference` on
every declaration, binds exactly that reference under the struct's name in
the current scope, and leaves every other type name's resolution
unchanged. -/
theorem check_structs_pass1_ok :
    ∀ (structs : List StructDefinition) (te : TypeEnvironment) (scope : Scope)
      (rest : List Scope),
      (structs.map fun s => s.struct_name).Nodup →
      (∀ s ∈ structs, scope.find_symbol s.struct_name = none) →
      (∀ s ∈ structs, scope.find_type s.struct_name = none) →
      ∃ te' scope' structs',
        check_structs_pass1 te ⟨scope :: rest⟩ structs =
          (te', ⟨scope' :: rest⟩, structs', .ok ()) ∧
        structs'.map (fun s => s.struct_name) = structs.map (fun s => s.struct_name) ∧
        structs'.map (fun s => s.struct_member) =
          structs.map (fun s => s.struct_member) ∧
        (∀ s' ∈ structs', ∃ r, s'.declaring_type = some r ∧
          scope'.find_type s'.struct_name = some r) ∧
        (∀ n, n ∉ structs.map (fun s => s.struct_name) →
          scope'.find_type n = scope.find_type n)
  | [], te, scope, rest, _, _, _ =>
      ⟨te, scope, [], rfl, rfl, rfl, by simp, fun n _ => rfl⟩
  | s :: tail, te, scope, rest, h1, h2, h3 => by
      have hsym : scope.find_symbol s.struct_name = none := h2 s (by simp)
      have hty : scope.find_type s.struct_name = none := h3 s (by simp)
      have hty' : (scope.types.find? fun p => p.1 == s.struct_name) = none :=
        Option.map_eq_none'.1 hty
      have hcons : (∀ x ∈ tail, ¬x.struct_name = s.struct_name) ∧
          (tail.map fun s2 => s2.struct_name).Nodup := by simpa using h1
      have hnotin : s.struct_name ∉ tail.map fun s2 => s2.struct_name := by
        intro hmem
        obtain ⟨x, hx, hxn⟩ := List.mem_map.1 hmem
        exact hcons.1 x hx hxn
      have htail_nodup : (tail.map fun s2 => s2.struct_name).Nodup := hcons.2
      have hne_tail : ∀ s2 ∈ tail, s.struct_name ≠ s2.struct_name :=
        fun s2 hs2 he => hcons.1 s2 hs2 he.symm
      have h2' : ∀ s2 ∈ tail,
          Scope.find_symbol ⟨scope.types ++ [(s.struct_name, ⟨te.types.length⟩)],
            scope.symbols ++ [⟨s.struct_name, none⟩]⟩ s2.struct_name = none := by
        intro s2 hs2
        exact scope_find_symbol_append_old _ _ _ _ _ (h2 s2 (by simp [hs2]))
          (hne_tail s2 hs2)
      have h3' : ∀ s2 ∈ tail,
          Scope.find_type ⟨scope.types ++ [(s.struct_name, ⟨te.types.length⟩)],
            scope.symbols ++ [⟨s.struct_name, none⟩]⟩ s2.struct_name = none := by
        intro s2 hs2
        rw [scope_find_type_append_old scope.types _ scope.symbols _ _ _
          (hne_tail s2 hs2)]
        exact h3 s2 (by simp [hs2])
      obtain ⟨te2, scope2, tail', heq, hnames, hmembers, hres, hframe⟩ :=
        check_structs_pass1_ok tail ⟨te.types ++ [⟨s.struct_name, [], []⟩]⟩
          ⟨scope.types ++ [(s.struct_name, ⟨te.types.length⟩)],
            scope.symbols ++ [⟨s.struct_name, none⟩]⟩ rest htail_nodup h2' h3'
      have hty2 : Scope.find_type
          ⟨scope.types, scope.symbols ++ [⟨s.struct_name, none⟩]⟩ s.struct_name =
          none := hty
      refine ⟨te2, scope2,
        { s with declaring_type := some ⟨te.types.length⟩ } :: tail', ?_, ?_, ?_, ?_, ?_⟩
      · simp only [check_structs_pass1, SymbolTable.add_symbol, hsym,
          Option.isSome_none, Bool.false_eq_true, if_false,
          TypeEnvironment.create_type, SymbolTable.add_type, hty2, heq]
      · simp [hnames]
      · simp [hmembers]
      · intro s' hs'
        rcases List.mem_cons.1 hs' with hs2 | hs2
        · subst hs2
          refine ⟨⟨te.types.length⟩, rfl, ?_⟩
          rw [hframe s.struct_name hnotin]
          exact scope_find_type_append_new scope.types _ s.struct_name _ hty'
        · exact hres s' hs2
      · intro n hn
        have hn1 : n ≠ s.struct_name := by
          intro he
          exact hn (by simp [he])
        have hn2 : n ∉ tail.map fun s2 => s2.struct_name := by
          intro hmem
          exact hn (by simp [hmem])
        rw [hframe n hn2, scope_find_type_append_old scope.types _ scope.symbols _ _ _
          (fun he => hn1 he.symm)]

/-- C3: in a module whose struct members reference only struct names
declared somewhere in the same module (in any order, mutual references
included), `check_structs` succeeds — the first sub-pass registers every
struct name before the second resolves any member — and every member's
written resolved type equals the `declaring_type` recorded on the struct it
names. -/
theorem C3_struct_forward_references (te : TypeEnvironment) (scope : Scope)
    (rest : List Scope) (structs : List StructDefinition)
    (h1 : (structs.map fun s => s.struct_name).Nodup)
    (h2 : ∀ s ∈ structs, scope.find_symbol s.struct_name = none)
    (h3 : ∀ s ∈ structs, scope.find_type s.struct_name = none)
    (h4 : ∀ s ∈ structs, ∀ m ∈ s.struct_member,
      m.struct_member_type_name ∈ structs.map fun s2 => s2.struct_name) :
    ∃ te' st' structs'',
      check_structs te ⟨scope :: rest⟩ structs = (te', st', structs'', .ok ()) ∧
      ∀ s'' ∈ structs'', ∀ m ∈ s''.struct_member,
        ∃ s2 ∈ structs'', s2.struct_name = m.struct_member_type_name ∧
          m.struct_member_type = s2.declaring_type ∧ m.struct_member_type.isSome := by
  obtain ⟨te1, scope1, structs1, heq1, hnames1, hmembers1, hres1, hframe1⟩ :=
    check_structs_pass1_ok structs te scope rest h1 h2 h3
  have hlook : ∀ n, n ∈ structs.map (fun s2 => s2.struct_name) →
      ∃ s1 ∈ structs1, s1.struct_name = n ∧ ∃ r, s1.declaring_type = some r ∧
        findTypeAux n (scope1 :: rest) = some r := by
    intro n hn
    rw [← hnames1] at hn
    obtain ⟨s1, hs1, hs1n⟩ := List.mem_map.1 hn
    obtain ⟨r, hr1, hr2⟩ := hres1 s1 hs1
    refine ⟨s1, hs1, hs1n, r, hr1, ?_⟩
    unfold findTypeAux
    rw [hs1n] at hr2
    rw [hr2]
  have hp2hyp : ∀ s1 ∈ structs1, ∀ m ∈ s1.struct_member,
      (m.struct_member_type_name ∈ structs.map fun s2 => s2.struct_name) ∧
      (findTypeAux m.struct_member_type_name
        (SymbolTable.mk (scope1 :: rest)).scopes).isSome := by
    intro s1 hs1 m hm
    obtain ⟨s0, hs0, hf0, hg0⟩ := mem_map_pair hmembers1 hnames1 s1 hs1
    have hmem0 : m ∈ s0.struct_member := by rw [hf0]; exact hm
    have hP : m.struct_member_type_name ∈ structs.map fun s2 => s2.struct_name :=
      h4 s0 hs0 m hmem0
    obtain ⟨s2, hs2, hs2n, r, hrd, hrt⟩ := hlook m.struct_member_type_name hP
    exact ⟨hP, by simp [hrt]⟩
  obtain ⟨structs2, heq2, hnames2, hdecl2, hres2⟩ :=
    check_structs_pass2_ok (· ∈ structs.map fun s2 => s2.struct_name)
      structs1 ⟨scope1 :: rest⟩ hp2hyp
  refine ⟨te1, ⟨scope1 :: rest⟩, structs2, ?_, ?_⟩
  · unfold check_structs
    rw [heq1]
    simp only [heq2]
  · intro s'' hs'' m hm
    obtain ⟨hP, hresolved⟩ := hres2 s'' hs'' m hm
    obtain ⟨s1, hs1, hs1n, r, hrd, hrt⟩ := hlook m.struct_member_type_name hP
    obtain ⟨s2, hs2, hs2n, hs2d⟩ := mem_map_pair hnames2.symm hdecl2.symm s1 hs1
    refine ⟨s2, hs2, by rw [hs2n, hs1n], ?_, ?_⟩
    · rw [hresolved, hrt, hs2d, hrd]
    · rw [hresolved, hrt]
      rfl

/-- C3 witness: two mutually referencing structs, each naming the other,
declared in one module. -/
theorem C3_struct_forward_references_witness :
    ∃ te' st' structs'',
      check_structs ⟨[]⟩ ⟨[Scope.empty]⟩
        [⟨"Test", [⟨"x", "Test2", none⟩], none⟩, ⟨"Test2", [⟨"y", "Test", none⟩], none⟩] =
        (te', st', structs'', .ok ()) ∧
      ∀ s'' ∈ structs'', ∀ m ∈ s''.struct_member,
        ∃ s2 ∈ structs'', s2.struct_name = m.struct_member_type_name ∧
          m.struct_member_type = s2.declaring_type ∧ m.struct_member_type.isSome :=
  C3_struct_forward_references ⟨[]⟩ Scope.empty []
    [⟨"Test", [⟨"x", "Test2", none⟩], none⟩, ⟨"Test2", [⟨"y", "Test", none⟩], none⟩]
    (by decide) (by decide) (by decide) (by decide)

/-! ## C10 — function names bound before the function scope is entered -/

/-- A symbol lookup in a scope whose symbol list got one new symbol
appended, for a different name, equals the lookup before. -/
theorem scope_find_symbol_append_ne (tl : List (String × TypeReference))
    (sl : List Symbol) (n nm : String) (t : Option TypeReference) (hne : n ≠ nm) :
    Scope.find_symbol ⟨tl, sl ++ [⟨n, t⟩]⟩ nm = Scope.find_symbol ⟨tl, sl⟩ nm := by
  unfold Scope.find_symbol
  simp only []
  rw [List.find?_append]
  have : ([(⟨n, t⟩ : Symbol)].find? fun sym => sym.name == nm) = none := by
    simp [List.find?, beq_eq_false_iff_ne.mpr hne]
  rw [this, Option.or_none]

/-- A symbol lookup in a scope whose symbol list got one new symbol
appended finds it when the base list does not bind the name. -/
theorem scope_find_symbol_append_self (tl : List (String × TypeReference))
    (sl : List Symbol) (n : String) (t : Option TypeReference)
    (hbase : (sl.find? fun sym => sym.name == n) = none) :
    Scope.find_symbol ⟨tl, sl ++ [⟨n, t⟩]⟩ n = some ⟨n, t⟩ := by
  unfold Scope.find_symbol
  simp only []
  rw [find?_append_of_none hbase]
  simp [List.find?]

/-- The type-namespace walk only reads the `types` field of the head
scope. -/
theorem findTypeAux_types_congr (s1 s2 : Scope) (h : s1.types = s2.types)
    (rest : List Scope) (n : String) :
    findTypeAux n (s1 :: rest) = findTypeAux n (s2 :: rest) := by
  unfold findTypeAux
  have : s1.find_type n = s2.find_type n := by
    unfold Scope.find_type
    rw [h]
  rw [this]

/-- The argument loop: distinct argument names that are fresh in the
function scope and whose type names resolve are all bound; the head
scope's type namespace is untouched and other value names resolve as
before. -/
theorem check_arguments_ok :
    ∀ (args : List FunctionArgument) (scope2 : Scope) (srest2 : List Scope),
      (args.map fun a => a.argument_name).Nodup →
      (∀ a ∈ args, scope2.find_symbol a.argument_name = none) →
      (∀ a ∈ args, (findTypeAux a.argument_type_name (scope2 :: srest2)).isSome) →
      ∃ args' scope2',
        check_arguments ⟨scope2 :: srest2⟩ args = (⟨scope2' :: srest2⟩, args', .ok ()) ∧
        scope2'.types = scope2.types ∧
        (∀ nm, nm ∉ args.map (fun a => a.argument_name) →
          scope2'.find_symbol nm = scope2.find_symbol nm)
  | [], scope2, srest2, _, _, _ => ⟨[], scope2, rfl, rfl, fun nm _ => rfl⟩
  | a :: tail, scope2, srest2, h1, h2, h3 => by
      have hcons : (∀ x ∈ tail, ¬x.argument_name = a.argument_name) ∧
          (tail.map fun a2 => a2.argument_name).Nodup := by simpa using h1
      have hne_tail : ∀ a2 ∈ tail, a.argument_name ≠ a2.argument_name :=
        fun a2 ha2 he => hcons.1 a2 ha2 he.symm
      have hsome := h3 a (by simp)
      obtain ⟨r, hr⟩ := Option.isSome_iff_exists.1 hsome
      have hsym : scope2.find_symbol a.argument_name = none := h2 a (by simp)
      set scope2b : Scope :=
        ⟨scope2.types, scope2.symbols ++ [⟨a.argument_name, some r⟩]⟩ with hscope2b
      have h2' : ∀ a2 ∈ tail, scope2b.find_symbol a2.argument_name = none := by
        intro a2 ha2
        rw [hscope2b, scope_find_symbol_append_ne _ _ _ _ _ (hne_tail a2 ha2)]
        exact h2 a2 (by simp [ha2])
      have h3' : ∀ a2 ∈ tail,
          (findTypeAux a2.argument_type_name (scope2b :: srest2)).isSome := by
        intro a2 ha2
        rw [findTypeAux_types_congr scope2b scope2 rfl]
        exact h3 a2 (by simp [ha2])
      obtain ⟨tail', scope2', heq, htypes, hframe⟩ :=
        check_arguments_ok tail scope2b srest2 hcons.2 h2' h3'
      refine ⟨{ a with argument_type := some r } :: tail', scope2', ?_, ?_, ?_⟩
      · simp only [check_arguments, SymbolTable.find_type_or_err, hr,
          SymbolTable.add_symbol_with_type, hsym, Option.isSome_none,
          Bool.false_eq_true, if_false, heq]
      · rw [htypes]
      · intro nm hnm
        have hnm1 : a.argument_name ≠ nm := by
          intro he
          exact hnm (by simp [← he])
        have hnm2 : nm ∉ tail.map fun a2 => a2.argument_name := by
          intro hmem
          exact hnm (by simp [hmem])
        rw [hframe nm hnm2, hscope2b, scope_find_symbol_append_ne _ _ _ _ _ hnm1]

/-- A fresh scope on top never resolves a type name. -/
theorem findTypeAux_empty_cons (rest : List Scope) (n : String) :
    findTypeAux n (Scope.empty :: rest) = findTypeAux n rest := rfl

/-- One step of the value-namespace walk: no binding in the head scope. -/
theorem findSymbolAux_cons_none (s : Scope) (rest : List Scope) (n : String)
    (h : s.find_symbol n = none) :
    findSymbolAux n (s :: rest) = findSymbolAux n rest := by
  show (match s.find_symbol n with
        | some sym => some sym
        | none => findSymbolAux n rest) = findSymbolAux n rest
  rw [h]

/-- One step of the value-namespace walk: a binding in the head scope. -/
theorem findSymbolAux_cons_some (s : Scope) (rest : List Scope) (n : String)
    (sym : Symbol) (h : s.find_symbol n = some sym) :
    findSymbolAux n (s :: rest) = some sym := by
  show (match s.find_symbol n with
        | some sym2 => some sym2
        | none => findSymbolAux n rest) = some sym
  rw [h]

/-- C10: a function's name is bound as a value symbol, carrying the freshly
created function type, in the enclosing scope before the function's own
scope is entered: a variable reference in the body that names the function
itself (and is not shadowed by an argument) resolves to that function
type, and after the function's scope is left the binding is still visible
to later declarations. -/
theorem C10_function_binding (te : TypeEnvironment) (scope : Scope)
    (srest : List Scope) (fname : String) (args : List FunctionArgument)
    (rtn : String)
    (h1 : scope.find_symbol fname = none)
    (h2 : (args.map fun a => a.argument_name).Nodup)
    (h3 : fname ∉ args.map fun a => a.argument_name)
    (h4 : ∀ a ∈ args, (findTypeAux a.argument_type_name (scope :: srest)).isSome)
    (h5 : (findTypeAux rtn (scope :: srest)).isSome) :
    ∃ rt args',
      check_functions te ⟨scope :: srest⟩
        [⟨fname, args, rtn, none, ⟨[.Return ⟨.Variable ⟨fname, none⟩, none⟩]⟩⟩] =
        (⟨te.types ++ [⟨fname, [], []⟩]⟩,
         ⟨⟨scope.types, scope.symbols ++ [⟨fname, some ⟨te.types.length⟩⟩]⟩ :: srest⟩,
         [⟨fname, args', rtn, some rt,
           ⟨[.Return ⟨.Variable ⟨fname, some ⟨te.types.length⟩⟩,
              some ⟨te.types.length⟩⟩]⟩⟩], .ok ()) ∧
      SymbolTable.find_symbol
        ⟨⟨scope.types, scope.symbols ++ [⟨fname, some ⟨te.types.length⟩⟩]⟩ :: srest⟩
        fname = some ⟨fname, some ⟨te.types.length⟩⟩ := by
  have h1' : (scope.symbols.find? fun sym => sym.name == fname) = none := h1
  have h1s : Scope.find_symbol
      ⟨scope.types, scope.symbols ++ [⟨fname, some ⟨te.types.length⟩⟩]⟩ fname =
      some ⟨fname, some ⟨te.types.length⟩⟩ :=
    scope_find_symbol_append_self _ _ _ _ h1'
  have hargs_h3 : ∀ a ∈ args, (findTypeAux a.argument_type_name
      (Scope.empty ::
        (⟨scope.types, scope.symbols ++ [⟨fname, some ⟨te.types.length⟩⟩]⟩ : Scope) ::
        srest)).isSome := by
    intro a ha
    exact h4 a ha
  obtain ⟨args', scope2', hargs_eq, htypes2, hframe2⟩ :=
    check_arguments_ok args Scope.empty
      (⟨scope.types, scope.symbols ++ [⟨fname, some ⟨te.types.length⟩⟩]⟩ :: srest)
      h2 (fun a _ => rfl) hargs_h3
  obtain ⟨rt, hrt0⟩ := Option.isSome_iff_exists.1 h5
  have hrt : SymbolTable.find_type_or_err
      ⟨scope2' ::
        (⟨scope.types, scope.symbols ++ [⟨fname, some ⟨te.types.length⟩⟩]⟩ : Scope) ::
        srest⟩ rtn = .ok rt := by
    unfold SymbolTable.find_type_or_err
    have hstep : findTypeAux rtn
        (scope2' ::
          (⟨scope.types, scope.symbols ++ [⟨fname, some ⟨te.types.length⟩⟩]⟩ : Scope) ::
          srest) = some rt := by
      rw [findTypeAux_types_congr scope2' Scope.empty htypes2]
      exact hrt0
    rw [hstep]
  have h2f : scope2'.find_symbol fname = none := by
    rw [hframe2 fname h3]
    rfl
  have hfind : SymbolTable.find_symbol
      ⟨Scope.empty :: scope2' ::
        (⟨scope.types, scope.symbols ++ [⟨fname, some ⟨te.types.length⟩⟩]⟩ : Scope) ::
        srest⟩ fname = some ⟨fname, some ⟨te.types.length⟩⟩ := by
    unfold SymbolTable.find_symbol
    rw [findSymbolAux_cons_none Scope.empty _ _ rfl, findSymbolAux_cons_none _ _ _ h2f,
      findSymbolAux_cons_some _ _ _ _ h1s]
  have hvar : check_expression
      ⟨Scope.empty :: scope2' ::
        (⟨scope.types, scope.symbols ++ [⟨fname, some ⟨te.types.length⟩⟩]⟩ : Scope) ::
        srest⟩ (.Variable ⟨fname, none⟩) =
      (.Variable ⟨fname, some ⟨te.types.length⟩⟩, .ok ⟨te.types.length⟩) := by
    rw [check_expression]
    simp [check_variable_expression, hfind, Symbol.get_type]
  have hblock : check_block
      ⟨scope2' ::
        (⟨scope.types, scope.symbols ++ [⟨fname, some ⟨te.types.length⟩⟩]⟩ : Scope) ::
        srest⟩ ⟨[.Return ⟨.Variable ⟨fname, none⟩, none⟩]⟩ =
      (⟨scope2' ::
          (⟨scope.types, scope.symbols ++ [⟨fname, some ⟨te.types.length⟩⟩]⟩ : Scope) ::
          srest⟩,
       ⟨[.Return ⟨.Variable ⟨fname, some ⟨te.types.length⟩⟩,
          some ⟨te.types.length⟩⟩]⟩, .ok ()) := by
    unfold check_block
    simp only [SymbolTable.enter_scope]
    simp only [check_block_statements, hvar]
    simp [SymbolTable.leave_scope]
  have hadd : SymbolTable.add_symbol_with_type ⟨scope :: srest⟩ fname
      ⟨te.types.length⟩ =
      .ok ⟨⟨scope.types, scope.symbols ++ [⟨fname, some ⟨te.types.length⟩⟩]⟩ :: srest⟩ := by
    simp [SymbolTable.add_symbol_with_type, h1]
  refine ⟨rt, args', ?_, ?_⟩
  · unfold check_functions
    simp only [TypeEnvironment.create_type, hadd]
    simp only [SymbolTable.enter_scope]
    simp only [hargs_eq]
    simp only [hrt]
    simp only [hblock]
    simp only [SymbolTable.leave_scope, List.tail_cons]
    simp only [check_functions]
  · unfold SymbolTable.find_symbol
    rw [findSymbolAux_cons_some _ _ _ _ h1s]

/-- C10 witness: a function `f` with one argument whose body returns a
reference to `f` itself, checked against a table that registers `f32`. -/
theorem C10_function_binding_witness :
    ∃ rt args',
      check_functions ⟨[⟨"f32", [], []⟩]⟩ ⟨[⟨[("f32", ⟨0⟩)], []⟩]⟩
        [⟨"f", [⟨"x", "f32", none⟩], "f32", none,
          ⟨[.Return ⟨.Variable ⟨"f", none⟩, none⟩]⟩⟩] =
        (⟨[⟨"f32", [], []⟩, ⟨"f", [], []⟩]⟩,
         ⟨[⟨[("f32", ⟨0⟩)], [⟨"f", some ⟨1⟩⟩]⟩]⟩,
         [⟨"f", args', "f32", some rt,
           ⟨[.Return ⟨.Variable ⟨"f", some ⟨1⟩⟩, some ⟨1⟩⟩]⟩⟩], .ok ()) ∧
      SymbolTable.find_symbol ⟨[⟨[("f32", ⟨0⟩)], [⟨"f", some ⟨1⟩⟩]⟩]⟩ "f" =
        some ⟨"f", some ⟨1⟩⟩ :=
  C10_function_binding ⟨[⟨"f32", [], []⟩]⟩ ⟨[("f32", ⟨0⟩)], []⟩ [] "f"
    [⟨"x", "f32", none⟩] "f32" rfl (by decide) (by decide) (by decide) (by decide)

end Xshade
